import Mathlib

/-
Shallow embedding of the blogicum post-visibility and query-composition
policy (src/blogicum/blog/views.py together with the Comment model of
migration 0007). Records are Lean structures, the relational store is a
record of lists, and every view handler becomes a pure function from the
store (plus the current time and viewer) to a response and a new store.
-/

namespace Blogicum

/-- A blog category record: id, unique slug, and its published flag. -/
structure Category where
  id : Nat
  slug : String
  is_published : Bool
deriving DecidableEq

/-- A post record. `categoryId` is the optional foreign key to `Category`;
`author` is the owning user id. `pub_date` is a timestamp (integers model
datetimes; only their order matters to the views). -/
structure Post where
  id : Nat
  author : Nat
  title : String
  text : String
  pub_date : Int
  categoryId : Option Nat
  is_published : Bool
deriving DecidableEq

/-- A comment record, from migration 0007: text, author, owning post
(foreign key with cascade on delete), creation time. -/
structure Comment where
  id : Nat
  author : Nat
  postId : Nat
  text : String
  created_at : Int
deriving DecidableEq

/-- A user record (only the fields the views consult). -/
structure User where
  id : Nat
  username : String
deriving DecidableEq

/-- The relational store backing the views. `nextCommentId` models the
auto-incrementing primary key of the comment table. -/
structure Store where
  users : List User
  categories : List Category
  posts : List Post
  comments : List Comment
  nextCommentId : Nat
deriving DecidableEq

/-- The identity making a request: anonymous or an authenticated user id. -/
inductive Viewer where
  | anonymous : Viewer
  | user (id : Nat) : Viewer
deriving DecidableEq

/-- Looks a category up by primary key, as the ORM join on the post's
foreign key does. -/
def findCategory (s : Store) (cid : Nat) : Option Category :=
  s.categories.find? (fun c => c.id == cid)

/-- The join condition `category__is_published=True`: the post has a
category and that category is published (a NULL category fails the join). -/
def categoryPublished (s : Store) (p : Post) : Bool :=
  match p.categoryId with
  | none => false
  | some cid =>
    match findCategory s cid with
    | none => false
    | some c => c.is_published

/-- The public-visibility invariant used by every listing filter in
views.py: `is_published=True, category__is_published=True,
pub_date__lte=datetime.now()`. -/
def publicVisible (s : Store) (now : Int) (p : Post) : Bool :=
  p.is_published && categoryPublished s p && decide (p.pub_date ≤ now)

/-- The descending order on `pub_date` used by `order_by('-pub_date')`:
`postLe a b` holds when `a` may come before `b`. -/
def postLe (a b : Post) : Prop := b.pub_date ≤ a.pub_date

instance : DecidableRel postLe := fun a b => inferInstanceAs (Decidable (b.pub_date ≤ a.pub_date))

instance : IsTotal Post postLe := ⟨fun a b => le_total b.pub_date a.pub_date⟩

instance : IsTrans Post postLe := ⟨fun _ _ _ h1 h2 => le_trans h2 h1⟩

/-- Stable sort by `pub_date` descending, modelling `order_by('-pub_date')`
(ties keep stored order, matching the spec's stable-iteration tie-break). -/
def sortByPubDateDesc (l : List Post) : List Post :=
  List.insertionSort postLe l

/-- `post.comments.count()`: the number of persisted comments whose
foreign key points at `p`. -/
def commentCount (s : Store) (p : Post) : Nat :=
  (s.comments.filter (fun c => c.postId == p.id)).length

/-- Attaches `post.comment_count = post.comments.count()` to every post of
a listing, as the three listing views do. -/
def annotate (s : Store) (l : List Post) : List (Post × Nat) :=
  l.map (fun p => (p, commentCount s p))

/-- The descending `pub_date` order carried over to count-annotated rows. -/
def pairPubDesc (a b : Post × Nat) : Prop := b.1.pub_date ≤ a.1.pub_date

/-- PostListView: filter by the public-visibility invariant, order by
`pub_date` descending, annotate each row with its comment count. -/
def listPublicPosts (s : Store) (now : Int) : List (Post × Nat) :=
  annotate s (sortByPubDateDesc (s.posts.filter (publicVisible s now)))

/-- PostDetailView.get_queryset followed by the pk lookup: an authenticated
viewer queries the unfiltered queryset, an anonymous one the
visibility-filtered queryset; a miss is NotFound (`none`). -/
def getPostDetail (s : Store) (now : Int) (v : Viewer) (postId : Nat) : Option Post :=
  match v with
  | Viewer.user _ => s.posts.find? (fun p => p.id == postId)
  | Viewer.anonymous => (s.posts.filter (publicVisible s now)).find? (fun p => p.id == postId)

/-- `get_object_or_404(User, username=username)`. -/
def findUser (s : Store) (username : String) : Option User :=
  s.users.find? (fun u => u.username == username)

/-- UserProfileView: resolve the profile user by username (NotFound when
absent); the owner sees all of their posts, anyone else only the publicly
visible ones; ordered by `pub_date` descending and count-annotated. -/
def listProfilePosts (s : Store) (now : Int) (v : Viewer) (username : String) :
    Option (List (Post × Nat)) :=
  match findUser s username with
  | none => none
  | some u =>
    if v = Viewer.user u.id then
      some (annotate s (sortByPubDateDesc (s.posts.filter (fun p => p.author == u.id))))
    else
      some (annotate s (sortByPubDateDesc (s.posts.filter
        (fun p => p.author == u.id && publicVisible s now p))))

/-- CategoryPostListView.get_queryset: resolve the category by slug
requiring `is_published=True` (NotFound otherwise), then list the publicly
visible posts of that category, ordered by `pub_date` descending and
count-annotated. -/
def listCategoryPosts (s : Store) (now : Int) (slug : String) :
    Option (List (Post × Nat)) :=
  match s.categories.find? (fun c => c.slug == slug && c.is_published) with
  | none => none
  | some cat =>
    some (annotate s (sortByPubDateDesc (s.posts.filter
      (fun p => publicVisible s now p && p.categoryId == some cat.id))))

/-- The `get_object_or_404(Post, id=post_id, is_published=True,
category__is_published=True, pub_date__lte=datetime.now())` lookup shared
by add_comment, edit_comment and delete_comment. -/
def findVisiblePost (s : Store) (now : Int) (postId : Nat) : Option Post :=
  s.posts.find? (fun p => p.id == postId && publicVisible s now p)

/-- Surrounding-whitespace stripping, as the form's character field
applies to submitted text before validating and saving it. -/
def stripText (t : String) : String :=
  String.mk (((t.data.dropWhile Char.isWhitespace).reverse.dropWhile
    Char.isWhitespace).reverse)

/-- CommentForm validation: the single required `text` field is valid when
non-empty after stripping surrounding whitespace. -/
def commentTextValid (t : String) : Bool := !((stripText t).isEmpty)

/-- add_comment: 404 unless the post is publicly visible; if the form is
valid, persist a comment owned by the actor (the form strips the text);
redirect either way. `none` is NotFound, `some` the resulting store. -/
def addComment (s : Store) (now : Int) (actor : Nat) (postId : Nat) (text : String) :
    Option Store :=
  match findVisiblePost s now postId with
  | none => none
  | some p =>
    if commentTextValid text then
      some { s with
        comments := s.comments ++ [⟨s.nextCommentId, actor, p.id, stripText text, now⟩],
        nextCommentId := s.nextCommentId + 1 }
    else
      some s

/-- The observable outcome of a mutating handler. `serverError` is an
unhandled exception (the unbound `form` variable in edit_comment);
`forbidden` is the PermissionDenied 403 an authenticated viewer failing
UserPassesTestMixin receives; `redirectLogin` the anonymous redirect. -/
inductive Resp where
  | redirect (postId : Nat) : Resp
  | redirectProfile (userId : Nat) : Resp
  | redirectLogin : Resp
  | render : Resp
  | notFound : Resp
  | forbidden : Resp
  | serverError : Resp
deriving DecidableEq

/-- Responses that surface an error page rather than a redirect or a
normal render. -/
def isErrorResp : Resp → Bool
  | Resp.notFound => true
  | Resp.forbidden => true
  | Resp.serverError => true
  | _ => false

/-- edit_comment: 404 unless the post is publicly visible; the comment is
resolved scoped to that post (404 on miss); the author saves a valid form
and is redirected, or is shown the form again; a non-author falls through
to a reference to the never-assigned `form` variable, an unhandled
UnboundLocalError. `isPost` is true for a POST request. -/
def editComment (s : Store) (now : Int) (actor : Nat) (postId commentId : Nat)
    (isPost : Bool) (text : String) : Resp × Store :=
  match findVisiblePost s now postId with
  | none => (Resp.notFound, s)
  | some p =>
    match s.comments.find? (fun c => c.id == commentId && c.postId == p.id) with
    | none => (Resp.notFound, s)
    | some c =>
      if actor == c.author then
        if isPost then
          if commentTextValid text then
            (Resp.redirect postId,
             { s with comments := s.comments.map (fun c2 =>
                if c2.id == c.id then { c2 with text := stripText text } else c2) })
          else (Resp.render, s)
        else (Resp.render, s)
      else (Resp.serverError, s)

/-- delete_comment: 404 unless the post is publicly visible; the comment is
resolved scoped to that post (404 on miss); the author deletes it on POST
(or sees the confirmation page on GET); a non-author is silently
redirected to the post detail page. -/
def deleteComment (s : Store) (now : Int) (actor : Nat) (postId commentId : Nat)
    (isPost : Bool) : Resp × Store :=
  match findVisiblePost s now postId with
  | none => (Resp.notFound, s)
  | some p =>
    match s.comments.find? (fun c => c.id == commentId && c.postId == p.id) with
    | none => (Resp.notFound, s)
    | some c =>
      if actor == c.author then
        if isPost then
          (Resp.redirect postId,
           { s with comments := s.comments.filter (fun c2 => !(c2.id == c.id)) })
        else (Resp.render, s)
      else (Resp.redirect postId, s)

/-- The editable post fields of PostForm (which excludes `author`). -/
structure PostFields where
  title : String
  text : String
  pub_date : Int
  categoryId : Option Nat
  is_published : Bool
deriving DecidableEq

/-- Saving PostForm over an existing post: every field but the primary key
and the author is replaced. -/
def applyPostForm (p : Post) (f : PostFields) : Post :=
  { p with title := f.title, text := f.text, pub_date := f.pub_date,
           categoryId := f.categoryId, is_published := f.is_published }

/-- PostUpdateView: OnlyAuthorMixin resolves the post from the unfiltered
queryset (404 on miss) and runs test_func; an anonymous viewer is
redirected to login, an authenticated non-author gets PermissionDenied,
the author saves the form and is redirected to the detail page. -/
def postUpdate (s : Store) (v : Viewer) (postId : Nat) (f : PostFields) : Resp × Store :=
  match s.posts.find? (fun p => p.id == postId) with
  | none => (Resp.notFound, s)
  | some p =>
    match v with
    | Viewer.anonymous => (Resp.redirectLogin, s)
    | Viewer.user uid =>
      if uid == p.author then
        (Resp.redirect postId,
         { s with posts := s.posts.map (fun q =>
            if q.id == p.id then applyPostForm q f else q) })
      else (Resp.forbidden, s)

/-- Row deletion of a post: the post row goes away and, through the
`on_delete=CASCADE` of the comment foreign key (migration 0007), so does
every comment attached to it. -/
def cascadeDelete (s : Store) (postId : Nat) : Store :=
  { s with posts := s.posts.filter (fun p => !(p.id == postId)),
           comments := s.comments.filter (fun c => !(c.postId == postId)) }

/-- PostDeleteView on POST: same resolution and authorization as
postUpdate; the author's deletion cascades and redirects to their
profile. -/
def postDelete (s : Store) (v : Viewer) (postId : Nat) : Resp × Store :=
  match s.posts.find? (fun p => p.id == postId) with
  | none => (Resp.notFound, s)
  | some p =>
    match v with
    | Viewer.anonymous => (Resp.redirectLogin, s)
    | Viewer.user uid =>
      if uid == p.author then
        (Resp.redirectProfile uid, cascadeDelete s p.id)
      else (Resp.forbidden, s)

/-- A published category used by the concrete examples. -/
def exCatPub : Category := ⟨0, "pub", true⟩

/-- An unpublished category used by the concrete examples. -/
def exCatHidden : Category := ⟨5, "hidden", false⟩

/-- Example user alice (id 1). -/
def exAlice : User := ⟨1, "alice"⟩

/-- Example user bob (id 2). -/
def exBob : User := ⟨2, "bob"⟩

/-- A publicly visible post by alice (published, published category,
past `pub_date`). -/
def exPostVisible : Post := ⟨1, 1, "t1", "x", 0, some 0, true⟩

/-- A future-dated (scheduled) post by alice, not publicly visible at
time 10. -/
def exPostFuture : Post := ⟨2, 1, "t2", "x", 100, some 0, true⟩

/-- A post by bob whose category is unpublished, hence not publicly
visible. -/
def exPostHiddenCat : Post := ⟨3, 2, "t3", "x", 0, some 5, true⟩

/-- An unpublished post by alice, not publicly visible. -/
def exPostUnpub : Post := ⟨4, 1, "t4", "x", 0, some 0, false⟩

/-- A second publicly visible post, authored by bob. -/
def exPostVisible2 : Post := ⟨6, 2, "t6", "x", 1, some 0, true⟩

/-- Bob's comment on the visible post 1. -/
def exComment : Comment := ⟨1, 2, 1, "hi", 1⟩

/-- Bob's comment on the future-dated post 2. -/
def exComment2 : Comment := ⟨5, 2, 2, "later", 3⟩

/-- The concrete store the witnesses and counterexamples evaluate the
operations on, at current time 10. -/
def exStore : Store :=
  ⟨[exAlice, exBob], [exCatPub, exCatHidden],
   [exPostVisible, exPostFuture, exPostHiddenCat, exPostUnpub, exPostVisible2],
   [exComment, exComment2], 7⟩

/-- Mapping each annotated row back to its post undoes the annotation. -/
theorem annotate_map_fst (s : Store) (l : List Post) :
    (annotate s l).map Prod.fst = l := by
  simp [annotate, List.map_map, Function.comp_def]

/-- A row is in an annotated listing exactly when its post is in the
underlying list and its count is that post's comment count. -/
theorem mem_annotate {s : Store} {l : List Post} {x : Post × Nat} :
    x ∈ annotate s l ↔ x.1 ∈ l ∧ x.2 = commentCount s x.1 := by
  constructor
  · intro hx
    rcases List.mem_map.mp hx with ⟨p, hp, he⟩
    subst he
    exact ⟨hp, rfl⟩
  · rintro ⟨h1, h2⟩
    refine List.mem_map.mpr ⟨x.1, h1, ?_⟩
    cases x with
    | mk a b =>
      simp only at h2
      rw [h2]

/-- Sorting by `pub_date` descending permutes the list. -/
theorem sortByPubDateDesc_perm (l : List Post) :
    List.Perm (sortByPubDateDesc l) l :=
  List.perm_insertionSort postLe l

/-- The sort's output is sorted by `pub_date` descending. -/
theorem sortByPubDateDesc_sorted (l : List Post) :
    List.Sorted postLe (sortByPubDateDesc l) :=
  List.sorted_insertionSort postLe l

/-- Membership is preserved by the sort. -/
theorem mem_sortByPubDateDesc {l : List Post} {p : Post} :
    p ∈ sortByPubDateDesc l ↔ p ∈ l :=
  (sortByPubDateDesc_perm l).mem_iff

/-- Annotation carries the descending `pub_date` order over to the rows. -/
theorem sorted_pairs_annotate {s : Store} {l : List Post}
    (h : List.Sorted postLe l) : List.Sorted pairPubDesc (annotate s l) :=
  List.Pairwise.map _ (fun _ _ hab => hab) h

/-- When every stored post with the requested id fails the visibility
invariant, the shared visible-post lookup misses. -/
theorem findVisiblePost_eq_none {s : Store} {now : Int} {pid : Nat}
    (h : ∀ p ∈ s.posts, p.id = pid → publicVisible s now p = false) :
    findVisiblePost s now pid = none := by
  apply List.find?_eq_none.mpr
  intro p hp hcond
  rw [Bool.and_eq_true] at hcond
  have hid : p.id = pid := by
    have := hcond.1
    rwa [beq_iff_eq] at this
  rw [h p hp hid] at hcond
  exact Bool.false_ne_true hcond.2

/-- When every stored category with the requested slug is unpublished, the
published-category lookup misses. -/
theorem findPublishedCategory_eq_none {s : Store} {slug : String}
    (h : ∀ c ∈ s.categories, c.slug = slug → c.is_published = false) :
    s.categories.find? (fun c => c.slug == slug && c.is_published) = none := by
  apply List.find?_eq_none.mpr
  intro c hc hcond
  rw [Bool.and_eq_true] at hcond
  have hs : c.slug = slug := by
    have := hcond.1
    rwa [beq_iff_eq] at this
  rw [h c hc hs] at hcond
  exact Bool.false_ne_true hcond.2

/-- The profile listing of the profile's owner: all of their posts. -/
theorem listProfilePosts_self {s : Store} {now : Int} {uname : String} {u : User}
    (hu : findUser s uname = some u) :
    listProfilePosts s now (Viewer.user u.id) uname =
      some (annotate s (sortByPubDateDesc
        (s.posts.filter (fun p => p.author == u.id)))) := by
  unfold listProfilePosts
  rw [hu]
  simp

/-- The profile listing misses when the username does not resolve. -/
theorem listProfilePosts_noUser {s : Store} {now : Int} {v : Viewer}
    {uname : String} (hu : findUser s uname = none) :
    listProfilePosts s now v uname = none := by
  unfold listProfilePosts
  rw [hu]

/-- The category listing misses when no published category has the slug. -/
theorem listCategoryPosts_none {s : Store} {now : Int} {slug : String}
    (h : s.categories.find? (fun c => c.slug == slug && c.is_published) = none) :
    listCategoryPosts s now slug = none := by
  unfold listCategoryPosts
  rw [h]

/-- The category listing when a published category resolves. -/
theorem listCategoryPosts_pub {s : Store} {now : Int} {slug : String}
    {cat : Category}
    (hcat : s.categories.find? (fun c => c.slug == slug && c.is_published) = some cat) :
    listCategoryPosts s now slug =
      some (annotate s (sortByPubDateDesc (s.posts.filter
        (fun p => publicVisible s now p && p.categoryId == some cat.id)))) := by
  unfold listCategoryPosts
  rw [hcat]

/-- The profile listing seen by anyone else: only publicly visible posts. -/
theorem listProfilePosts_other {s : Store} {now : Int} {uname : String} {u : User}
    {v : Viewer} (hu : findUser s uname = some u) (hv : v ≠ Viewer.user u.id) :
    listProfilePosts s now v uname =
      some (annotate s (sortByPubDateDesc (s.posts.filter
        (fun p => p.author == u.id && publicVisible s now p)))) := by
  unfold listProfilePosts
  rw [hu]
  simp [hv]

/-- C1 (counterexample): the claim says a non-author viewer gets NotFound
on a post failing the public-visibility invariant, but an authenticated
non-author (bob, id 2) retrieves alice's unpublished post 4:
PostDetailView filters only for anonymous viewers. -/
theorem C1_counterexample :
    exPostUnpub ∈ exStore.posts ∧
    exPostUnpub.author ≠ 2 ∧
    publicVisible exStore 10 exPostUnpub = false ∧
    getPostDetail exStore 10 (Viewer.user 2) 4 = some exPostUnpub := by
  refine ⟨?_, ?_, ?_, ?_⟩ <;> decide

/-- C1 (amended): getPostDetail returns the post to every authenticated
viewer — the author in particular — regardless of publish state; only an
anonymous viewer gets NotFound when every post with the requested id
fails the public-visibility invariant. -/
theorem C1_detail_visibility (s : Store) (now : Int) (pid : Nat) :
    (∀ (u : Nat) (p : Post), s.posts.find? (fun q => q.id == pid) = some p →
      getPostDetail s now (Viewer.user u) pid = some p) ∧
    ((∀ p ∈ s.posts, p.id = pid → publicVisible s now p = false) →
      getPostDetail s now Viewer.anonymous pid = none) := by
  constructor
  · intro u p hp
    simpa [getPostDetail] using hp
  · intro h
    show (s.posts.filter (publicVisible s now)).find? (fun p => p.id == pid) = none
    apply List.find?_eq_none.mpr
    intro p hp hbeq
    rw [List.mem_filter] at hp
    have hid : p.id = pid := by rwa [beq_iff_eq] at hbeq
    rw [h p hp.1 hid] at hp
    exact Bool.false_ne_true hp.2

/-- C1 (witness): the author (alice, id 1) sees her own unpublished post
4, and an anonymous viewer gets NotFound for it. -/
theorem C1_witness :
    getPostDetail exStore 10 (Viewer.user 1) 4 = some exPostUnpub ∧
    getPostDetail exStore 10 Viewer.anonymous 4 = none := by
  constructor
  · exact (C1_detail_visibility exStore 10 4).1 1 exPostUnpub (by decide)
  · exact (C1_detail_visibility exStore 10 4).2 (by decide)

/-- C2: listPublicPosts returns exactly the stored posts satisfying the
public-visibility invariant, each annotated with its comment count,
ordered by `pub_date` descending; no post violating the invariant
appears. -/
theorem C2_list_public_posts (s : Store) (now : Int) :
    List.Perm ((listPublicPosts s now).map Prod.fst)
      (s.posts.filter (publicVisible s now)) ∧
    (∀ x ∈ listPublicPosts s now,
      x.1 ∈ s.posts ∧ publicVisible s now x.1 = true ∧
      x.2 = commentCount s x.1) ∧
    (∀ p ∈ s.posts, publicVisible s now p = true →
      (p, commentCount s p) ∈ listPublicPosts s now) ∧
    List.Sorted pairPubDesc (listPublicPosts s now) := by
  refine ⟨?_, ?_, ?_, ?_⟩
  · rw [listPublicPosts, annotate_map_fst]
    exact sortByPubDateDesc_perm _
  · intro x hx
    rw [listPublicPosts] at hx
    rcases mem_annotate.mp hx with ⟨h1, h2⟩
    rw [mem_sortByPubDateDesc, List.mem_filter] at h1
    exact ⟨h1.1, h1.2, h2⟩
  · intro p hp hv
    rw [listPublicPosts]
    apply mem_annotate.mpr
    refine ⟨?_, rfl⟩
    rw [mem_sortByPubDateDesc, List.mem_filter]
    exact ⟨hp, hv⟩
  · exact sorted_pairs_annotate (sortByPubDateDesc_sorted _)

/-- C2 (witness): the visible post 1 appears in the home listing of the
example store with its one comment. -/
theorem C2_witness : (exPostVisible, 1) ∈ listPublicPosts exStore 10 := by
  have h := (C2_list_public_posts exStore 10).2.2.1 exPostVisible
    (by decide) (by decide)
  have hc : commentCount exStore exPostVisible = 1 := by decide
  rwa [hc] at h

/-- C4: add_comment fails with NotFound whenever every stored post with
the target id fails the public-visibility invariant — for every actor,
the post's author included — and on a visible post with valid text it
persists a new comment owned by the actor. -/
theorem C4_add_comment (s : Store) (now : Int) (actor : Nat) (pid : Nat)
    (text : String) :
    ((∀ p ∈ s.posts, p.id = pid → publicVisible s now p = false) →
      addComment s now actor pid text = none) ∧
    (∀ p, findVisiblePost s now pid = some p → commentTextValid text = true →
      addComment s now actor pid text =
        some { s with
          comments := s.comments ++ [⟨s.nextCommentId, actor, pid, stripText text, now⟩],
          nextCommentId := s.nextCommentId + 1 }) := by
  constructor
  · intro h
    unfold addComment
    rw [findVisiblePost_eq_none h]
  · intro p hp hv
    have hid : p.id = pid := by
      have := List.find?_some hp
      rw [Bool.and_eq_true] at this
      have h1 := this.1
      rwa [beq_iff_eq] at h1
    unfold addComment
    rw [hp]
    simp [hv, hid]

/-- C4 (witness): alice (post 4's author) cannot comment on her own
unpublished post 4, while bob can comment on the visible post 1 and the
stored comment is owned by him. -/
theorem C4_witness :
    addComment exStore 10 1 4 "hey" = none ∧
    addComment exStore 10 2 1 "hey" =
      some { exStore with
        comments := exStore.comments ++ [⟨exStore.nextCommentId, 2, 1, stripText "hey", 10⟩],
        nextCommentId := exStore.nextCommentId + 1 } := by
  constructor
  · exact (C4_add_comment exStore 10 1 4 "hey").1 (by decide)
  · exact (C4_add_comment exStore 10 2 1 "hey").2 exPostVisible (by decide) (by decide)

/-- C10: edit_comment and delete_comment fail with NotFound (leaving the
store unchanged) whenever every stored post with the target id fails the
public-visibility invariant, for every actor — in particular for the
author of any comment on that post. -/
theorem C10_comment_mutation_requires_visible_post (s : Store) (now : Int)
    (actor : Nat) (pid cid : Nat) (m : Bool) (text : String)
    (hinv : ∀ p ∈ s.posts, p.id = pid → publicVisible s now p = false) :
    editComment s now actor pid cid m text = (Resp.notFound, s) ∧
    deleteComment s now actor pid cid m = (Resp.notFound, s) := by
  have hn := findVisiblePost_eq_none hinv
  unfold editComment deleteComment
  rw [hn]
  exact ⟨rfl, rfl⟩

/-- C10 (witness): bob authored comment 5 on the future-dated post 2, yet
editing or deleting it fails with NotFound while post 2 is scheduled. -/
theorem C10_witness :
    editComment exStore 10 2 2 5 true "zz" = (Resp.notFound, exStore) ∧
    deleteComment exStore 10 2 2 5 true = (Resp.notFound, exStore) :=
  C10_comment_mutation_requires_visible_post exStore 10 2 2 5 true "zz" (by decide)

/-- C3: a profile owner's listing contains all of their posts — the
unpublished and future-dated ones included — ordered by `pub_date`
descending, while any other viewer sees exactly the owner's publicly
visible posts. -/
theorem C3_profile_posts (s : Store) (now : Int) (uname : String) (u : User)
    (hu : findUser s uname = some u) :
    (∃ l, listProfilePosts s now (Viewer.user u.id) uname = some l ∧
      List.Perm (l.map Prod.fst) (s.posts.filter (fun p => p.author == u.id)) ∧
      (∀ p ∈ s.posts, p.author = u.id → ∃ n, (p, n) ∈ l) ∧
      List.Sorted pairPubDesc l) ∧
    (∀ v, v ≠ Viewer.user u.id →
      ∃ l, listProfilePosts s now v uname = some l ∧
        List.Perm (l.map Prod.fst)
          (s.posts.filter (fun p => p.author == u.id && publicVisible s now p)) ∧
        (∀ x ∈ l, x.1.author = u.id ∧ publicVisible s now x.1 = true) ∧
        List.Sorted pairPubDesc l) := by
  constructor
  · refine ⟨_, listProfilePosts_self hu, ?_, ?_, ?_⟩
    · rw [annotate_map_fst]
      exact sortByPubDateDesc_perm _
    · intro p hp ha
      refine ⟨commentCount s p, mem_annotate.mpr ⟨?_, rfl⟩⟩
      rw [mem_sortByPubDateDesc, List.mem_filter]
      exact ⟨hp, by rwa [beq_iff_eq]⟩
    · exact sorted_pairs_annotate (sortByPubDateDesc_sorted _)
  · intro v hv
    refine ⟨_, listProfilePosts_other hu hv, ?_, ?_, ?_⟩
    · rw [annotate_map_fst]
      exact sortByPubDateDesc_perm _
    · intro x hx
      rcases mem_annotate.mp hx with ⟨h1, _⟩
      rw [mem_sortByPubDateDesc, List.mem_filter, Bool.and_eq_true] at h1
      have h2 := h1.2.1
      rw [beq_iff_eq] at h2
      exact ⟨h2, h1.2.2⟩
    · exact sorted_pairs_annotate (sortByPubDateDesc_sorted _)

/-- C3 (witness): alice's own profile listing includes her unpublished
post 4, while bob's view of her profile resolves and only ever shows
publicly visible posts. -/
theorem C3_witness :
    (∃ l, listProfilePosts exStore 10 (Viewer.user 1) "alice" = some l ∧
      ∃ n, (exPostUnpub, n) ∈ l) ∧
    (∃ l, listProfilePosts exStore 10 (Viewer.user 2) "alice" = some l ∧
      ∀ x ∈ l, publicVisible exStore 10 x.1 = true) := by
  constructor
  · obtain ⟨l, hl, _, hall, _⟩ :=
      (C3_profile_posts exStore 10 "alice" exAlice (by decide)).1
    obtain ⟨n, hn⟩ := hall exPostUnpub (by decide) (by decide)
    exact ⟨l, hl, n, hn⟩
  · obtain ⟨l, hl, _, hmem, _⟩ :=
      (C3_profile_posts exStore 10 "alice" exAlice (by decide)).2
        (Viewer.user 2) (by decide)
    exact ⟨l, hl, fun x hx => (hmem x hx).2⟩

/-- C6: the category listing fails with NotFound when every stored
category with the slug is unpublished (in particular when none exists);
when a published category resolves, the listing holds only publicly
visible posts of that category, count-annotated and ordered by `pub_date`
descending. -/
theorem C6_category_posts (s : Store) (now : Int) (slug : String) :
    ((∀ c ∈ s.categories, c.slug = slug → c.is_published = false) →
      listCategoryPosts s now slug = none) ∧
    (∀ cat, s.categories.find? (fun c => c.slug == slug && c.is_published) = some cat →
      ∃ l, listCategoryPosts s now slug = some l ∧
        List.Perm (l.map Prod.fst)
          (s.posts.filter (fun p => publicVisible s now p && p.categoryId == some cat.id)) ∧
        (∀ x ∈ l, publicVisible s now x.1 = true ∧ x.1.categoryId = some cat.id ∧
          x.2 = commentCount s x.1) ∧
        List.Sorted pairPubDesc l) := by
  constructor
  · intro h
    exact listCategoryPosts_none (findPublishedCategory_eq_none h)
  · intro cat hcat
    refine ⟨_, listCategoryPosts_pub hcat, ?_, ?_, ?_⟩
    · rw [annotate_map_fst]
      exact sortByPubDateDesc_perm _
    · intro x hx
      rcases mem_annotate.mp hx with ⟨h1, h2⟩
      rw [mem_sortByPubDateDesc, List.mem_filter, Bool.and_eq_true] at h1
      have h3 := h1.2.2
      rw [beq_iff_eq] at h3
      exact ⟨h1.2.1, h3, h2⟩
    · exact sorted_pairs_annotate (sortByPubDateDesc_sorted _)

/-- C6 (witness): the unpublished category slug is NotFound, and the
published one lists only its publicly visible posts. -/
theorem C6_witness :
    listCategoryPosts exStore 10 "hidden" = none ∧
    (∃ l, listCategoryPosts exStore 10 "pub" = some l ∧
      ∀ x ∈ l, publicVisible exStore 10 x.1 = true) := by
  constructor
  · exact (C6_category_posts exStore 10 "hidden").1 (by decide)
  · obtain ⟨l, hl, _, hmem, _⟩ :=
      (C6_category_posts exStore 10 "pub").2 exCatPub (by decide)
    exact ⟨l, hl, fun x hx => (hmem x hx).1⟩

/-- C9: in each of the three annotated listings, the count attached to a
returned post is the number of comments persisted for that post. -/
theorem C9_comment_counts (s : Store) (now : Int) (slug uname : String)
    (v : Viewer) :
    (∀ x ∈ listPublicPosts s now,
      x.2 = (s.comments.filter (fun c => c.postId == x.1.id)).length) ∧
    (∀ l, listCategoryPosts s now slug = some l →
      ∀ x ∈ l, x.2 = (s.comments.filter (fun c => c.postId == x.1.id)).length) ∧
    (∀ l, listProfilePosts s now v uname = some l →
      ∀ x ∈ l, x.2 = (s.comments.filter (fun c => c.postId == x.1.id)).length) := by
  refine ⟨?_, ?_, ?_⟩
  · intro x hx
    rw [listPublicPosts] at hx
    exact (mem_annotate.mp hx).2
  · intro l hl x hx
    cases hcat : s.categories.find? (fun c => c.slug == slug && c.is_published) with
    | none =>
      rw [listCategoryPosts_none hcat] at hl
      exact Option.noConfusion hl
    | some cat =>
      rw [listCategoryPosts_pub hcat] at hl
      injection hl with hl
      rw [← hl] at hx
      exact (mem_annotate.mp hx).2
  · intro l hl x hx
    cases hu : findUser s uname with
    | none =>
      rw [listProfilePosts_noUser hu] at hl
      exact Option.noConfusion hl
    | some u =>
      by_cases hv : v = Viewer.user u.id
      · rw [hv, listProfilePosts_self hu] at hl
        injection hl with hl
        rw [← hl] at hx
        exact (mem_annotate.mp hx).2
      · rw [listProfilePosts_other hu hv] at hl
        injection hl with hl
        rw [← hl] at hx
        exact (mem_annotate.mp hx).2

/-- C9 (witness): post 1's row in the home listing carries count 1, the
number of persisted comments on post 1 in the example store. -/
theorem C9_witness :
    (1 : Nat) = (exStore.comments.filter
      (fun c => c.postId == exPostVisible.id)).length := by
  exact (C9_comment_counts exStore 10 "pub" "alice" (Viewer.user 1)).1
    (exPostVisible, 1) (by decide)

/-- C5 (counterexample): the claim says a non-owner mutation never yields
an error distinguishable from a silent redirect, but alice (id 1), who
does not own bob's comment 1, gets an unhandled server error from
edit_comment (the `form` variable is never assigned on the non-author
path). -/
theorem C5_counterexample :
    exComment ∈ exStore.comments ∧
    exComment.author ≠ 1 ∧
    publicVisible exStore 10 exPostVisible = true ∧
    (editComment exStore 10 1 1 1 false "").1 = Resp.serverError ∧
    isErrorResp (editComment exStore 10 1 1 1 false "").1 = true := by
  refine ⟨?_, ?_, ?_, ?_, ?_⟩ <;> decide

/-- C5 (amended): a non-owner mutation never changes the store, and
delete_comment by a non-owner silently redirects; but edit_comment by a
non-owner raises a server error and post update/delete by an
authenticated non-author raises PermissionDenied instead of silently
redirecting. -/
theorem C5_nonowner_no_mutation (s : Store) (now : Int) (v : Viewer)
    (actor : Nat) (pid cid : Nat) (f : PostFields) (m : Bool) (text : String)
    (hp : ∀ p ∈ s.posts, p.id = pid → Viewer.user p.author ≠ v)
    (hc : ∀ c ∈ s.comments, c.id = cid → c.author ≠ actor) :
    (postUpdate s v pid f).2 = s ∧
    (postDelete s v pid).2 = s ∧
    (editComment s now actor pid cid m text).2 = s ∧
    (deleteComment s now actor pid cid m).2 = s ∧
    ((deleteComment s now actor pid cid m).1 = Resp.notFound ∨
     (deleteComment s now actor pid cid m).1 = Resp.redirect pid) := by
  have hpu : (postUpdate s v pid f).2 = s := by
    unfold postUpdate
    cases hfind : s.posts.find? (fun p => p.id == pid) with
    | none => rfl
    | some p =>
      have hid : p.id = pid := by
        have := List.find?_some hfind
        rwa [beq_iff_eq] at this
      have hne := hp p (List.mem_of_find?_eq_some hfind) hid
      cases v with
      | anonymous => rfl
      | user uid =>
        have hb : (uid == p.author) = false := by
          rw [beq_eq_false_iff_ne]
          intro he
          exact hne (by rw [he])
        simp [hb]
  have hpd : (postDelete s v pid).2 = s := by
    unfold postDelete
    cases hfind : s.posts.find? (fun p => p.id == pid) with
    | none => rfl
    | some p =>
      have hid : p.id = pid := by
        have := List.find?_some hfind
        rwa [beq_iff_eq] at this
      have hne := hp p (List.mem_of_find?_eq_some hfind) hid
      cases v with
      | anonymous => rfl
      | user uid =>
        have hb : (uid == p.author) = false := by
          rw [beq_eq_false_iff_ne]
          intro he
          exact hne (by rw [he])
        simp [hb]
  have hec : (editComment s now actor pid cid m text).2 = s := by
    unfold editComment
    cases hfp : findVisiblePost s now pid with
    | none => rfl
    | some p =>
      cases hfc : s.comments.find? (fun c => c.id == cid && c.postId == p.id) with
      | none => simp [hfc]
      | some c =>
        have hcid : c.id = cid := by
          have := List.find?_some hfc
          rw [Bool.and_eq_true] at this
          have h1 := this.1
          rwa [beq_iff_eq] at h1
        have hne := hc c (List.mem_of_find?_eq_some hfc) hcid
        have hb : (actor == c.author) = false := by
          rw [beq_eq_false_iff_ne]
          intro he
          exact hne (by rw [he])
        simp [hfc, hb]
  have hdc : (deleteComment s now actor pid cid m).2 = s ∧
      ((deleteComment s now actor pid cid m).1 = Resp.notFound ∨
       (deleteComment s now actor pid cid m).1 = Resp.redirect pid) := by
    unfold deleteComment
    cases hfp : findVisiblePost s now pid with
    | none => exact ⟨rfl, Or.inl rfl⟩
    | some p =>
      cases hfc : s.comments.find? (fun c => c.id == cid && c.postId == p.id) with
      | none => constructor <;> simp [hfc]
      | some c =>
        have hcid : c.id = cid := by
          have := List.find?_some hfc
          rw [Bool.and_eq_true] at this
          have h1 := this.1
          rwa [beq_iff_eq] at h1
        have hne := hc c (List.mem_of_find?_eq_some hfc) hcid
        have hb : (actor == c.author) = false := by
          rw [beq_eq_false_iff_ne]
          intro he
          exact hne (by rw [he])
        constructor
        · simp [hfc, hb]
        · right
          simp [hfc, hb]
  exact ⟨hpu, hpd, hec, hdc.1, hdc.2⟩

/-- C5 (witness): on the example store, bob (id 2) cannot modify alice's
post 1 and alice (id 1) cannot modify bob's comment 1 — the store comes
back unchanged each time. -/
theorem C5_witness :
    (postUpdate exStore (Viewer.user 2) 1 ⟨"a", "b", 0, some 0, true⟩).2 = exStore ∧
    (editComment exStore 10 1 1 1 true "zz").2 = exStore ∧
    (deleteComment exStore 10 1 1 1 true).2 = exStore := by
  have h := C5_nonowner_no_mutation exStore 10 (Viewer.user 2) 1 1 1
    ⟨"a", "b", 0, some 0, true⟩ true "zz" (by decide) (by decide)
  exact ⟨h.1, h.2.2.1, h.2.2.2.1⟩

/-- C7: the author's post deletion removes the post and exactly the
comments attached to it, keeping every other post and comment; the
author's comment deletion keeps all posts and removes exactly the
comments carrying the deleted primary key. -/
theorem C7_delete_cascade (s : Store) (now : Int) (pid cid : Nat) :
    (∀ p, s.posts.find? (fun q => q.id == pid) = some p →
      (∀ q, q ∈ (postDelete s (Viewer.user p.author) pid).2.posts ↔
        q ∈ s.posts ∧ q.id ≠ p.id) ∧
      (∀ c, c ∈ (postDelete s (Viewer.user p.author) pid).2.comments ↔
        c ∈ s.comments ∧ c.postId ≠ p.id)) ∧
    (∀ p c, findVisiblePost s now pid = some p →
      s.comments.find? (fun c2 => c2.id == cid && c2.postId == p.id) = some c →
      (deleteComment s now c.author pid cid true).2.posts = s.posts ∧
      (∀ c2, c2 ∈ (deleteComment s now c.author pid cid true).2.comments ↔
        c2 ∈ s.comments ∧ c2.id ≠ c.id)) := by
  constructor
  · intro p hfind
    have heq : (postDelete s (Viewer.user p.author) pid).2 = cascadeDelete s p.id := by
      unfold postDelete
      rw [hfind]
      simp
    rw [heq]
    constructor
    · intro q
      simp [cascadeDelete, List.mem_filter]
    · intro c
      simp [cascadeDelete, List.mem_filter]
  · intro p c hfp hfc
    have heq : (deleteComment s now c.author pid cid true).2 =
        { s with comments := s.comments.filter (fun c2 => !(c2.id == c.id)) } := by
      unfold deleteComment
      rw [hfp]
      simp [hfc]
    rw [heq]
    refine ⟨rfl, ?_⟩
    intro c2
    simp [List.mem_filter]

/-- C7 (witness): deleting post 1 removes bob's comment on it but keeps
the future-dated post 2; deleting comment 1 keeps all posts and the
unrelated comment 5. -/
theorem C7_witness :
    exComment ∉ (postDelete exStore (Viewer.user 1) 1).2.comments ∧
    exPostFuture ∈ (postDelete exStore (Viewer.user 1) 1).2.posts ∧
    (deleteComment exStore 10 2 1 1 true).2.posts = exStore.posts ∧
    exComment2 ∈ (deleteComment exStore 10 2 1 1 true).2.comments := by
  have h1 := (C7_delete_cascade exStore 10 1 1).1 exPostVisible (by decide)
  have h2 := (C7_delete_cascade exStore 10 1 1).2 exPostVisible exComment
    (by decide) (by decide)
  refine ⟨?_, ?_, ?_, ?_⟩
  · intro hmem
    have := (h1.2 exComment).mp hmem
    exact this.2 (by decide)
  · exact (h1.1 exPostFuture).mpr ⟨by decide, by decide⟩
  · exact h2.1
  · exact (h2.2 exComment2).mpr ⟨by decide, by decide⟩

/-- C8: when a comment with the requested id exists but on a different
post, and no comment with that id sits under the requested post,
edit_comment and delete_comment fail with NotFound and leave the store
unchanged. -/
theorem C8_comment_scoped_lookup (s : Store) (now : Int) (actor : Nat)
    (pid cid : Nat) (m : Bool) (text : String)
    (hex : ∃ c ∈ s.comments, c.id = cid ∧ c.postId ≠ pid)
    (hscope : ∀ c ∈ s.comments, c.id = cid → c.postId ≠ pid) :
    editComment s now actor pid cid m text = (Resp.notFound, s) ∧
    deleteComment s now actor pid cid m = (Resp.notFound, s) := by
  cases hfp : findVisiblePost s now pid with
  | none =>
    unfold editComment deleteComment
    rw [hfp]
    exact ⟨rfl, rfl⟩
  | some p =>
    have hid : p.id = pid := by
      have := List.find?_some hfp
      rw [Bool.and_eq_true] at this
      have h1 := this.1
      rwa [beq_iff_eq] at h1
    have hnone : s.comments.find? (fun c2 => c2.id == cid && c2.postId == p.id) = none := by
      apply List.find?_eq_none.mpr
      intro c hcm hcond
      rw [Bool.and_eq_true] at hcond
      have h1 : c.id = cid := by
        have := hcond.1
        rwa [beq_iff_eq] at this
      have h2 : c.postId = p.id := by
        have := hcond.2
        rwa [beq_iff_eq] at this
      exact hscope c hcm h1 (by rw [h2, hid])
    constructor
    · unfold editComment
      rw [hfp]
      simp [hnone]
    · unfold deleteComment
      rw [hfp]
      simp [hnone]

/-- C8 (witness): comment 1 lives under post 1; resolving it under the
visible post 6 fails with NotFound for both operations. -/
theorem C8_witness :
    editComment exStore 10 2 6 1 true "zz" = (Resp.notFound, exStore) ∧
    deleteComment exStore 10 2 6 1 true = (Resp.notFound, exStore) :=
  C8_comment_scoped_lookup exStore 10 2 6 1 true "zz"
    ⟨exComment, by decide, by decide, by decide⟩ (by decide)

end Blogicum
